import Mathlib

/-!
Shallow embedding of the RemoteAuth JNI platform bridge
(`remoteauth/service/jni/src/remoteauth_jni_android_platform.rs`).

The Rust fragment maintains a process-wide registry `HANDLE_MAPPING` from a
platform handle (`i64`) to a `JavaPlatform` instance, a process-wide atomic
counter `HANDLE_RN`, and, per instance, a pending-callback table `map_futures`
keyed by a per-instance atomic response-handle counter `atomic_handle`.

Modelling conventions:
* `i64` is embedded as `Int`, with the wrap-around of Rust's
  `AtomicI64::fetch_add` made explicit by `i64wrap`.
* `std::collections::HashMap` is embedded as an association list with
  insert-or-replace (`mapInsert`), lookup (`mapGet`) and key removal
  (`mapErase`); `HashMap::remove(&k)` both returns `mapGet m k` and leaves
  `mapErase m k` behind.
* Callbacks (`Box<dyn ResponseCallback + Send>`) are values of an abstract
  type `CB`; invoking a callback branch is recorded as an event in a trace of
  `Step`s rather than executed.
* Fallible interactions with the JNI collaborator (signature parsing via
  `TypeSignature::from_str`, `vm.attach_current_thread`,
  `env.byte_array_from_slice`, `env.convert_byte_array`, the discarded result
  of `env.call_method_unchecked`, `unique_jvm::get_static_ref` and the
  class/method resolution inside `JavaPlatform::new`) are external to this
  fragment; each such outcome is passed in as a boolean parameter, and the
  embedding reproduces exactly what the Rust code does with each outcome.
* The `log`/`logger` side channel (`info!`, `error!`, `debug!`, and the
  logging initialization performed by `insert_platform_handle` for handle 0)
  carries no functional state and is not modelled; branches whose only effect
  is logging are embedded as identity on the state with an empty event trace.
-/

namespace RemoteAuthJni

/-- Two's-complement reduction of an unbounded integer into the `i64` range
`[-2^63, 2^63)`; this is the arithmetic performed by Rust's wrapping
`AtomicI64::fetch_add(1, Ordering::SeqCst)` when the increment overflows. -/
def i64wrap (x : Int) : Int := (x + 2 ^ 63) % 2 ^ 64 - 2 ^ 63

/-- Association-list rendition of `HashMap::get`: the value bound to key `k`,
if any. -/
def mapGet {α : Type} (m : List (Int × α)) (k : Int) : Option α :=
  match m with
  | [] => none
  | (k', v) :: rest => if k' = k then some v else mapGet rest k

/-- Association-list rendition of `HashMap::insert`: binds `k` to `v`,
replacing any existing binding of `k`. -/
def mapInsert {α : Type} (m : List (Int × α)) (k : Int) (v : α) : List (Int × α) :=
  match m with
  | [] => [(k, v)]
  | (k', v') :: rest => if k' = k then (k, v) :: rest else (k', v') :: mapInsert rest k v

/-- Association-list rendition of the removal effect of `HashMap::remove`:
every binding of `k` is dropped (maps built by `mapInsert` bind each key at
most once, so this agrees with `HashMap` semantics). -/
def mapErase {α : Type} (m : List (Int × α)) (k : Int) : List (Int × α) :=
  m.filter fun e => e.1 != k

/-- Embedding of `generate_platform_handle`: `HANDLE_RN.fetch_add(1, SeqCst)`
returns the previous counter value and advances the counter with `i64`
wrap-around.  The process-wide counter `HANDLE_RN` is passed and returned
explicitly. -/
def generate_platform_handle (handle_rn : Int) : Int × Int :=
  (handle_rn, i64wrap (handle_rn + 1))

/-- Outputs of `n` successive `generate_platform_handle` calls starting from
counter state `c`. -/
def genHandleSeq : Nat → Int → List Int
  | 0, _ => []
  | n + 1, c => (generate_platform_handle c).1 :: genHandleSeq n (generate_platform_handle c).2

/-- Counter state after `n` successive `generate_platform_handle` calls
starting from counter state `c`. -/
def genHandleState : Nat → Int → Int
  | 0, c => c
  | n + 1, c => genHandleState n (generate_platform_handle c).2

/-- Embedding of `struct JavaPlatform`.  The JNI-owned fields (`vm`,
`platform_native_obj`, `send_request_method_id`) are opaque host-runtime
handles with no bearing on the dispatch logic and are not carried;
`map_futures` is the pending-callback table (`Mutex<HashMap<i64, Box<dyn
ResponseCallback + Send>>>`) and `atomic_handle` the per-instance response
handle counter (`AtomicI64`). -/
structure JavaPlatform (CB : Type) where
  platform_handle : Int
  map_futures : List (Int × CB)
  atomic_handle : Int
deriving DecidableEq

/-- Successful result of `JavaPlatform::new`: the table starts empty
(`HashMap::new()`) and the response-handle counter starts at
`AtomicI64::new(0)`. -/
def JavaPlatform.new (CB : Type) (platform_handle : Int) : JavaPlatform CB :=
  { platform_handle := platform_handle, map_futures := [], atomic_handle := 0 }

/-- Observable events of the bridge, in program order: response-handle
allocation, pending-table insertion, thread attachment, payload marshalling,
the outbound `call_method_unchecked` invocation with its four arguments in
order, the two callback branches (`on_response` / `on_error`), the
`BadHandleException` thrown back into the host runtime, and the thread
aborting on a failed `unwrap`. -/
inductive Step (CB : Type) where
  | allocResponseHandle (response_handle : Int)
  | insertPending (response_handle : Int)
  | attachThread
  | marshalPayload
  | outboundCall (connection_id : Int) (payload : List Nat) (response_handle : Int)
      (platform_handle : Int)
  | invokeOnResponse (callback : CB) (response : List Nat)
  | invokeOnError (callback : CB) (error_code : Int)
  | throwBadHandle (platform_handle : Int)
  | panicked
deriving DecidableEq

/-- Error results of `send_request` (`anyhow::Error` messages collapsed to
their kind).  A marshalling failure inside the `and_then` closure flows
through the same `map_err` as an attach failure in the source, so both are
reported as `attachFailure`. -/
inductive SendRequestError where
  | invalidSignature
  | attachFailure
deriving DecidableEq

/-- Embedding of `JavaPlatform::send_request`.  In source order: parse the
fixed method signature (fail with the invalid-signature error if malformed);
`fetch_add` the per-instance response-handle counter; insert the callback
into `map_futures` under the allocated handle; attach the current thread;
marshal the request bytes into a Java byte array; invoke the outbound method
with `(connection_id, request, response_handle, platform_handle)`, discarding
the invocation's result (`let _ = env.call_method_unchecked(...)`); return
`Ok(())`.  The booleans are the outcomes of the four external JNI
interactions; `call_result_ok` is discarded exactly as the source discards
the call's result.  Returns the updated instance, the event trace, and the
function result. -/
def send_request {CB : Type} (sig_ok attach_ok marshal_ok call_result_ok : Bool)
    (p : JavaPlatform CB) (connection_id : Int) (request : List Nat) (callback : CB) :
    JavaPlatform CB × List (Step CB) × Except SendRequestError Unit :=
  if !sig_ok then
    (p, [], .error .invalidSignature)
  else
    let response_handle := p.atomic_handle
    let p1 : JavaPlatform CB :=
      { p with
        atomic_handle := i64wrap (p.atomic_handle + 1),
        map_futures := mapInsert p.map_futures response_handle callback }
    if !attach_ok then
      (p1, [.allocResponseHandle response_handle, .insertPending response_handle],
        .error .attachFailure)
    else if !marshal_ok then
      (p1, [.allocResponseHandle response_handle, .insertPending response_handle, .attachThread],
        .error .attachFailure)
    else
      let _ := call_result_ok
      (p1,
        [.allocResponseHandle response_handle, .insertPending response_handle, .attachThread,
          .marshalPayload,
          .outboundCall connection_id request response_handle p.platform_handle],
        .ok ())

/-- Embedding of `JavaPlatform::on_send_request_success`: remove the pending
callback bound to `response_handle` and invoke its success branch with an
owned copy of the response bytes; if no binding exists the event is only
logged (`error!`) and the state is untouched. -/
def on_send_request_success {CB : Type} (p : JavaPlatform CB) (response : List Nat)
    (response_handle : Int) : JavaPlatform CB × List (Step CB) :=
  match mapGet p.map_futures response_handle with
  | some callback =>
    ({ p with map_futures := mapErase p.map_futures response_handle },
      [.invokeOnResponse callback response])
  | none => (p, [])

/-- Embedding of `JavaPlatform::on_send_request_error`: remove the pending
callback bound to `response_handle` and invoke its error branch with the
code; if no binding exists the event is only logged (`error!`) and the state
is untouched. -/
def on_send_request_error {CB : Type} (p : JavaPlatform CB) (error_code : Int)
    (response_handle : Int) : JavaPlatform CB × List (Step CB) :=
  match mapGet p.map_futures response_handle with
  | some callback =>
    ({ p with map_futures := mapErase p.map_futures response_handle },
      [.invokeOnError callback error_code])
  | none => (p, [])

/-- Process-wide state of the bridge: the registry `HANDLE_MAPPING` and the
platform-handle counter `HANDLE_RN`. -/
structure Registry (CB : Type) where
  handle_mapping : List (Int × JavaPlatform CB)
  handle_rn : Int
deriving DecidableEq

/-- Embedding of `insert_platform_handle`: registry insertion under the
`HANDLE_MAPPING` lock.  The one-time logging initialization performed when
`handle == 0` is a side channel and not modelled. -/
def insert_platform_handle {CB : Type} (reg : Registry CB) (handle : Int)
    (item : JavaPlatform CB) : Registry CB :=
  { reg with handle_mapping := mapInsert reg.handle_mapping handle item }

/-- Error results of `JavaPlatform::create` (`jni::errors::Error` collapsed
to its origin): `jvmNotCaptured` for `unique_jvm::get_static_ref()` returning
`None` (mapped to `InvalidCtorReturn` by `ok_or`), `bindingFailure` for any
failure inside `JavaPlatform::new` (thread attach, `get_object_class`,
`new_global_ref`, `get_method_id`). -/
inductive CreateError where
  | jvmNotCaptured
  | bindingFailure
deriving DecidableEq

/-- Embedding of `JavaPlatform::create`.  In source order: the first
statement is `generate_platform_handle()` — the counter advances before any
fallible step — then `unique_jvm::get_static_ref()` and `JavaPlatform::new`
may fail (propagated by `?`, leaving the registry untouched); on success the
instance is registered under the generated handle.  Returns the updated
process state and either the generated handle or the error. -/
def create {CB : Type} (jvm_captured new_ok : Bool) (reg : Registry CB) :
    Registry CB × Except CreateError Int :=
  let platform_handle := reg.handle_rn
  let reg1 : Registry CB := { reg with handle_rn := i64wrap (reg.handle_rn + 1) }
  if !jvm_captured then
    (reg1, .error .jvmNotCaptured)
  else if !new_ok then
    (reg1, .error .bindingFailure)
  else
    (insert_platform_handle reg1 platform_handle (JavaPlatform.new CB platform_handle),
      .ok platform_handle)

/-- Embedding of `native_on_send_request_success`: look up the platform
handle in `HANDLE_MAPPING`; if absent, throw `BadHandleException` back into
the host runtime; if present, `env.convert_byte_array(app_response)` is
unwrapped — `convert_ok = false` makes the handling thread abort
(`panicked`) before any callback or throw — and on success the instance's
`on_send_request_success` runs under the instance lock.  The updated
instance is written back (the Rust code mutates it in place through the
`Arc<Mutex<_>>` held by the registry). -/
def native_on_send_request_success {CB : Type} (convert_ok : Bool) (reg : Registry CB)
    (app_response : List Nat) (platform_handle response_handle : Int) :
    Registry CB × List (Step CB) :=
  match mapGet reg.handle_mapping platform_handle with
  | some p =>
    if !convert_ok then
      (reg, [.panicked])
    else
      let r := on_send_request_success p app_response response_handle
      ({ reg with handle_mapping := mapInsert reg.handle_mapping platform_handle r.1 }, r.2)
  | none => (reg, [.throwBadHandle platform_handle])

/-- Embedding of `native_on_send_request_error`: look up the platform handle
in `HANDLE_MAPPING`; if absent, throw `BadHandleException` back into the host
runtime; if present, run the instance's `on_send_request_error` under the
instance lock, writing the instance back. -/
def native_on_send_request_error {CB : Type} (reg : Registry CB) (error_code : Int)
    (platform_handle response_handle : Int) : Registry CB × List (Step CB) :=
  match mapGet reg.handle_mapping platform_handle with
  | some p =>
    let r := on_send_request_error p error_code response_handle
    ({ reg with handle_mapping := mapInsert reg.handle_mapping platform_handle r.1 }, r.2)
  | none => (reg, [.throwBadHandle platform_handle])

/-- Iterated `JavaPlatform::create`: one create attempt per listed pair of
outcomes `(jvm_captured, new_ok)`. -/
def runCreates {CB : Type} : List (Bool × Bool) → Registry CB → Registry CB
  | [], reg => reg
  | f :: rest, reg => runCreates rest (create f.1 f.2 reg).1

/-- Response handles recorded in a trace by `allocResponseHandle` events, in
order. -/
def allocsOf {CB : Type} (tr : List (Step CB)) : List Int :=
  tr.filterMap fun s =>
    match s with
    | .allocResponseHandle h => some h
    | _ => none

/-- Response handles allocated by `n` successive fully-successful
`send_request` calls on one instance, read off the event traces. -/
def sendRequestSeq {CB : Type} : Nat → JavaPlatform CB → Int → List Nat → CB → List Int
  | 0, _, _, _, _ => []
  | n + 1, p, connection_id, request, callback =>
    let out := send_request true true true true p connection_id request callback
    allocsOf out.2.1 ++ sendRequestSeq n out.1 connection_id request callback

/-- Discriminator for `insertPending` events. -/
def Step.isInsertPending {CB : Type} : Step CB → Bool
  | .insertPending _ => true
  | _ => false

/-- Discriminator for the events that interact with the host runtime inside
`send_request`: thread attachment, payload marshalling and the outbound
method invocation. -/
def Step.isHostInteraction {CB : Type} : Step CB → Bool
  | .attachThread => true
  | .marshalPayload => true
  | .outboundCall _ _ _ _ => true
  | _ => false

/-- Discriminator for outbound method invocations. -/
def Step.isOutboundCall {CB : Type} : Step CB → Bool
  | .outboundCall _ _ _ _ => true
  | _ => false

/-- Discriminator for callback invocations (either branch). -/
def Step.isInvocation {CB : Type} : Step CB → Bool
  | .invokeOnResponse _ _ => true
  | .invokeOnError _ _ => true
  | _ => false

/-- Discriminator for thrown `BadHandleException` events. -/
def Step.isThrow {CB : Type} : Step CB → Bool
  | .throwBadHandle _ => true
  | _ => false

/-- Outbound method invocations recorded in a trace, in order. -/
def outboundCalls {CB : Type} (tr : List (Step CB)) : List (Step CB) :=
  tr.filter Step.isOutboundCall

/-- Callback invocations recorded in a trace, in order. -/
def invocations {CB : Type} (tr : List (Step CB)) : List (Step CB) :=
  tr.filter Step.isInvocation

/-- Ordering property of a trace: every `insertPending` event occurs strictly
before every host-runtime interaction (thread attachment, marshalling,
outbound invocation). -/
def insertBeforeHost {CB : Type} (tr : List (Step CB)) : Prop :=
  ∀ i j : Fin tr.length, (tr.get i).isInsertPending = true →
    (tr.get j).isHostInteraction = true → (i : Nat) < (j : Nat)

/-- Executable check implying `insertBeforeHost`: at every suffix whose head
is a host interaction, no pending-table insertion occurs in the tail. -/
def noPendingInsertAfterHost {CB : Type} : List (Step CB) → Bool
  | [] => true
  | s :: rest =>
    (!(s.isHostInteraction) || rest.all fun t => !(t.isInsertPending))
      && noPendingInsertAfterHost rest

/-- True exactly on `Except.ok` results. -/
def isOkResult {ε α : Type} : Except ε α → Bool
  | .ok _ => true
  | .error _ => false

/-! Helper lemmas about the association-list map operations. -/

lemma mapGet_insert_self {α : Type} (m : List (Int × α)) (k : Int) (v : α) :
    mapGet (mapInsert m k v) k = some v := by
  induction m with
  | nil => simp [mapInsert, mapGet]
  | cons e rest ih =>
    obtain ⟨k', v'⟩ := e
    by_cases h : k' = k
    · simp [mapInsert, mapGet, h]
    · simp [mapInsert, mapGet, h, ih]

lemma mapGet_insert_ne {α : Type} (m : List (Int × α)) (k k' : Int) (v : α) (h : k' ≠ k) :
    mapGet (mapInsert m k v) k' = mapGet m k' := by
  induction m with
  | nil => simp [mapInsert, mapGet, h.symm]
  | cons e rest ih =>
    obtain ⟨k0, v0⟩ := e
    by_cases h0 : k0 = k
    · subst h0
      simp [mapInsert, mapGet, h.symm]
    · simp only [mapInsert, if_neg h0, mapGet]
      by_cases h1 : k0 = k'
      · simp [h1]
      · simp [h1, ih]

lemma mapInsert_self_of_get {α : Type} (m : List (Int × α)) (k : Int) (v : α)
    (h : mapGet m k = some v) : mapInsert m k v = m := by
  induction m with
  | nil => simp [mapGet] at h
  | cons e rest ih =>
    obtain ⟨k0, v0⟩ := e
    by_cases h0 : k0 = k
    · subst h0
      have h' : v0 = v := by simpa [mapGet] using h
      subst h'
      simp [mapInsert]
    · simp only [mapGet, if_neg h0] at h
      simp [mapInsert, h0, ih h]

lemma mapGet_erase_self {α : Type} (m : List (Int × α)) (k : Int) :
    mapGet (mapErase m k) k = none := by
  induction m with
  | nil => simp [mapErase, mapGet]
  | cons e rest ih =>
    obtain ⟨k0, v0⟩ := e
    by_cases h0 : k0 = k
    · simpa [mapErase, h0] using ih
    · simpa [mapErase, mapGet, h0] using ih

lemma mapGet_erase_ne {α : Type} (m : List (Int × α)) (k k' : Int) (h : k' ≠ k) :
    mapGet (mapErase m k) k' = mapGet m k' := by
  induction m with
  | nil => simp [mapErase, mapGet]
  | cons e rest ih =>
    obtain ⟨k0, v0⟩ := e
    by_cases h0 : k0 = k
    · subst h0
      have he : mapErase ((k0, v0) :: rest) k0 = mapErase rest k0 := by
        simp [mapErase, List.filter_cons]
      rw [he, ih]
      simp [mapGet, h.symm]
    · have he : mapErase ((k0, v0) :: rest) k = (k0, v0) :: mapErase rest k := by
        simp [mapErase, List.filter_cons, h0]
      rw [he]
      simp only [mapGet]
      by_cases h1 : k0 = k'
      · simp [h1]
      · simp [h1, ih]

/-! Helper lemmas about `i64` wrap-around arithmetic. -/

lemma i64wrap_eq_self {x : Int} (h1 : -(2 ^ 63) ≤ x) (h2 : x < 2 ^ 63) : i64wrap x = x := by
  unfold i64wrap
  omega

lemma i64wrap_range (x : Int) : -(2 ^ 63) ≤ i64wrap x ∧ i64wrap x < 2 ^ 63 := by
  unfold i64wrap
  omega

lemma i64wrap_add_left (x y : Int) : i64wrap (i64wrap x + y) = i64wrap (x + y) := by
  unfold i64wrap
  have h1 : (x + 2 ^ 63) % 2 ^ 64 - 2 ^ 63 + y + 2 ^ 63 = (x + 2 ^ 63) % 2 ^ 64 + y := by ring
  rw [h1, Int.emod_add_emod]
  ring_nf

/-! Closed forms for the handle-counter sequences. -/

lemma genHandleState_eq {c : Int} {n : Nat} (hc : 0 ≤ c) (h : c + n < 2 ^ 63) :
    genHandleState n c = c + n := by
  induction n generalizing c with
  | zero => simp [genHandleState]
  | succ m ih =>
    have hw : i64wrap (c + 1) = c + 1 := i64wrap_eq_self (by omega) (by omega)
    simp only [genHandleState, generate_platform_handle, hw]
    rw [ih (by omega) (by omega)]
    push_cast
    ring

lemma genHandleSeq_eq_range {c : Int} {n : Nat} (hc : 0 ≤ c) (h : c + n ≤ 2 ^ 63) :
    genHandleSeq n c = (List.range n).map (fun (k : Nat) => c + (k : Int)) := by
  induction n generalizing c with
  | zero => simp [genHandleSeq]
  | succ m ih =>
    rcases Nat.eq_zero_or_pos m with hm | hm
    · subst hm
      simp [genHandleSeq, generate_platform_handle, List.range_succ]
    · have hw : i64wrap (c + 1) = c + 1 := i64wrap_eq_self (by omega) (by omega)
      simp only [genHandleSeq, generate_platform_handle, hw]
      rw [ih (by omega) (by omega), List.range_succ_eq_map, List.map_cons, List.map_map]
      congr 1
      · ring
      · apply List.map_congr_left
        intro a ha
        simp [Function.comp]
        ring

lemma genHandleSeq_append (n m : Nat) (c : Int) :
    genHandleSeq (n + m) c = genHandleSeq n c ++ genHandleSeq m (genHandleState n c) := by
  induction n generalizing c with
  | zero => simp [genHandleSeq, genHandleState]
  | succ k ih =>
    rw [Nat.succ_add]
    simp only [genHandleSeq, genHandleState, List.cons_append]
    rw [ih]

lemma genHandleSeq_pairwise {c : Int} {n : Nat} (hc : 0 ≤ c) (h : c + n ≤ 2 ^ 63) :
    List.Pairwise (· < ·) (genHandleSeq n c) := by
  rw [genHandleSeq_eq_range hc h]
  exact (List.pairwise_lt_range n).map _ (fun a b hab => by omega)

lemma sendRequestSeq_eq_genHandleSeq {CB : Type} (n : Nat) (p : JavaPlatform CB)
    (connection_id : Int) (request : List Nat) (callback : CB) :
    sendRequestSeq n p connection_id request callback = genHandleSeq n p.atomic_handle := by
  induction n generalizing p with
  | zero => rfl
  | succ m ih =>
    simp only [sendRequestSeq, send_request, Bool.not_true, Bool.false_eq_true, if_false,
      genHandleSeq, generate_platform_handle, allocsOf, List.filterMap]
    simp [ih]

/-! Lemmas used for the ordering claim. -/

lemma Step.not_insert_of_host {CB : Type} (s : Step CB) (h : s.isHostInteraction = true) :
    s.isInsertPending = false := by
  cases s <;> simp_all [Step.isHostInteraction, Step.isInsertPending]

lemma insertBeforeHost_of_check {CB : Type} : ∀ tr : List (Step CB),
    noPendingInsertAfterHost tr = true → insertBeforeHost tr := by
  intro tr
  induction tr with
  | nil => intro _ i; exact i.elim0
  | cons s rest ih =>
    intro hc
    simp only [noPendingInsertAfterHost, Bool.and_eq_true] at hc
    obtain ⟨h1, h2⟩ := hc
    intro i j hi hj
    rcases i with ⟨iv, hiv⟩
    rcases j with ⟨jv, hjv⟩
    cases iv with
    | zero =>
      cases jv with
      | zero =>
        have h0 : s.isInsertPending = true := hi
        rw [Step.not_insert_of_host s hj] at h0
        exact absurd h0 (by simp)
      | succ jv' => exact Nat.succ_pos _
    | succ iv' =>
      cases jv with
      | zero =>
        exfalso
        have hhost : s.isHostInteraction = true := hj
        have hall : rest.all (fun t => !(t.isInsertPending)) = true := by
          simpa [hhost] using h1
        have hmem := List.get_mem rest iv' (Nat.lt_of_succ_lt_succ hiv)
        have hne := List.all_eq_true.mp hall _ hmem
        simp only [Bool.not_eq_true'] at hne
        have h0 : (rest.get ⟨iv', Nat.lt_of_succ_lt_succ hiv⟩).isInsertPending = true := hi
        rw [hne] at h0
        exact absurd h0 (by simp)
      | succ jv' =>
        have h0 : (rest.get ⟨iv', Nat.lt_of_succ_lt_succ hiv⟩).isInsertPending = true := hi
        have h3 : (rest.get ⟨jv', Nat.lt_of_succ_lt_succ hjv⟩).isHostInteraction = true := hj
        have hlt := ih h2 ⟨iv', Nat.lt_of_succ_lt_succ hiv⟩ ⟨jv', Nat.lt_of_succ_lt_succ hjv⟩
          h0 h3
        exact Nat.succ_lt_succ hlt

/-! Claim theorems. -/

/-- Claim C1: for a pending callback registered in the table under its
response handle, the first matching delivery removes the entry (leaving every
other entry intact) and invokes exactly that callback exactly once — the
success branch for a success delivery, the error branch for an error delivery
— while any delivery for a response handle with no table entry (in
particular, any second delivery for the same handle after the first removed
it) invokes no callback and leaves the instance entirely unchanged (the event
is only logged). -/
theorem C1_first_delivery_invokes_once {CB : Type} (p : JavaPlatform CB) (r : Int) (cb : CB)
    (payload payload2 : List Nat) (code code2 : Int)
    (h : mapGet p.map_futures r = some cb) :
    (on_send_request_success p payload r =
      ({ p with map_futures := mapErase p.map_futures r }, [Step.invokeOnResponse cb payload]))
    ∧ (on_send_request_error p code r =
      ({ p with map_futures := mapErase p.map_futures r }, [Step.invokeOnError cb code]))
    ∧ mapGet (mapErase p.map_futures r) r = none
    ∧ (∀ k, k ≠ r → mapGet (mapErase p.map_futures r) k = mapGet p.map_futures k)
    ∧ (∀ q : JavaPlatform CB, mapGet q.map_futures r = none →
        on_send_request_success q payload2 r = (q, [])
        ∧ on_send_request_error q code2 r = (q, [])) := by
  refine ⟨?_, ?_, mapGet_erase_self _ _, fun k hk => mapGet_erase_ne _ _ _ hk, ?_⟩
  · simp [on_send_request_success, h]
  · simp [on_send_request_error, h]
  · intro q hq
    constructor <;> simp [on_send_request_success, on_send_request_error, hq]

/-- Concrete instantiation of `C1_first_delivery_invokes_once`: one pending
callback at handle 0; a success delivery fires it once and empties the table,
after which success and error deliveries at handle 0 are no-ops. -/
theorem C1_witness :
    on_send_request_success (JavaPlatform.mk 7 [(0, (42 : Nat))] 1) [9, 9] 0 =
      (JavaPlatform.mk 7 [] 1, [Step.invokeOnResponse 42 [9, 9]])
    ∧ on_send_request_success (JavaPlatform.mk 7 ([] : List (Int × Nat)) 1) [1] 0 =
      (JavaPlatform.mk 7 [] 1, [])
    ∧ on_send_request_error (JavaPlatform.mk 7 ([] : List (Int × Nat)) 1) 3 0 =
      (JavaPlatform.mk 7 [] 1, []) := by
  have h := C1_first_delivery_invokes_once (JavaPlatform.mk 7 [(0, (42 : Nat))] 1) 0 42
    [9, 9] [1] 5 3 rfl
  exact ⟨h.1, (h.2.2.2.2 (JavaPlatform.mk 7 [] 1) rfl).1, (h.2.2.2.2 (JavaPlatform.mk 7 [] 1) rfl).2⟩

/-- Claim C2: an inbound completion (success or error) for a platform handle
absent from the registry throws `BadHandleException` back into the host
runtime and invokes no callback, leaving the process state unchanged; a
completion for a registered platform whose pending table has no entry for the
response handle is only logged — no throw, no callback invocation, process
state unchanged. -/
theorem C2_unknown_handle_vs_unmatched_response {CB : Type} (reg : Registry CB)
    (resp : List Nat) (code ph rh : Int) (co : Bool) :
    (mapGet reg.handle_mapping ph = none →
      native_on_send_request_success co reg resp ph rh = (reg, [Step.throwBadHandle ph])
      ∧ native_on_send_request_error reg code ph rh = (reg, [Step.throwBadHandle ph]))
    ∧ (∀ p : JavaPlatform CB, mapGet reg.handle_mapping ph = some p →
        mapGet p.map_futures rh = none →
        native_on_send_request_success true reg resp ph rh = (reg, [])
        ∧ native_on_send_request_error reg code ph rh = (reg, [])) := by
  constructor
  · intro h
    constructor <;> simp [native_on_send_request_success, native_on_send_request_error, h]
  · intro p hp hr
    have hins := mapInsert_self_of_get reg.handle_mapping ph p hp
    constructor
    · simp [native_on_send_request_success, hp, on_send_request_success, hr, hins]
    · simp [native_on_send_request_error, hp, on_send_request_error, hr, hins]

/-- Concrete instantiation of `C2_unknown_handle_vs_unmatched_response`: a
registry holding one platform under handle 7 whose table has an entry only at
response handle 0.  Handle 99 is unknown (throws, state unchanged); handle 7
with response handle 5 is unmatched (logged only, state unchanged). -/
theorem C2_witness :
    native_on_send_request_success true
        (Registry.mk [(7, JavaPlatform.mk 7 [(0, (42 : Nat))] 1)] 8) [9] 99 0 =
      (Registry.mk [(7, JavaPlatform.mk 7 [(0, (42 : Nat))] 1)] 8, [Step.throwBadHandle 99])
    ∧ native_on_send_request_error
        (Registry.mk [(7, JavaPlatform.mk 7 [(0, (42 : Nat))] 1)] 8) 3 99 0 =
      (Registry.mk [(7, JavaPlatform.mk 7 [(0, (42 : Nat))] 1)] 8, [Step.throwBadHandle 99])
    ∧ native_on_send_request_success true
        (Registry.mk [(7, JavaPlatform.mk 7 [(0, (42 : Nat))] 1)] 8) [9] 7 5 =
      (Registry.mk [(7, JavaPlatform.mk 7 [(0, (42 : Nat))] 1)] 8, [])
    ∧ native_on_send_request_error
        (Registry.mk [(7, JavaPlatform.mk 7 [(0, (42 : Nat))] 1)] 8) 3 7 5 =
      (Registry.mk [(7, JavaPlatform.mk 7 [(0, (42 : Nat))] 1)] 8, []) := by
  have hu := (C2_unknown_handle_vs_unmatched_response
    (Registry.mk [(7, JavaPlatform.mk 7 [(0, (42 : Nat))] 1)] 8) [9] 3 99 0 true).1 rfl
  have hm := (C2_unknown_handle_vs_unmatched_response
    (Registry.mk [(7, JavaPlatform.mk 7 [(0, (42 : Nat))] 1)] 8) [9] 3 7 5 true).2
    (JavaPlatform.mk 7 [(0, (42 : Nat))] 1) rfl rfl
  exact ⟨hu.1, hu.2, hm.1, hm.2⟩

/-- Claim C5: in every `send_request` call — whatever the outcomes of
signature parsing, thread attachment, marshalling and the host invocation —
the pending-table insertion event occurs strictly before every host-runtime
interaction (thread attachment, payload marshalling, outbound invocation) in
the call's event trace. -/
theorem C5_insert_precedes_host_interaction {CB : Type}
    (sig_ok attach_ok marshal_ok call_result_ok : Bool) (p : JavaPlatform CB)
    (connection_id : Int) (request : List Nat) (callback : CB) :
    insertBeforeHost (send_request sig_ok attach_ok marshal_ok call_result_ok p
      connection_id request callback).2.1 := by
  cases sig_ok
  · intro i
    exact i.elim0
  · cases attach_ok
    · exact insertBeforeHost_of_check _ rfl
    · cases marshal_ok
      · exact insertBeforeHost_of_check _ rfl
      · exact insertBeforeHost_of_check _ rfl

/-- Concrete instantiation of `C5_insert_precedes_host_interaction` on a
fully successful call. -/
theorem C5_witness :
    insertBeforeHost (send_request true true true true (JavaPlatform.new Nat 7) 5 [1, 2, 3]
      0).2.1 :=
  C5_insert_precedes_host_interaction true true true true (JavaPlatform.new Nat 7) 5 [1, 2, 3] 0

/-- Claim C6: a fully issued `send_request` performs exactly one outbound
host invocation, whose four arguments are, in order, the connection id, the
request payload, the freshly allocated response handle (the instance
counter's current value) and the platform handle; the call returns success
and its outcome does not depend on the host invocation's own (discarded)
result. -/
theorem C6_outbound_call_arguments {CB : Type} (p : JavaPlatform CB) (connection_id : Int)
    (request : List Nat) (callback : CB) (b1 b2 : Bool) :
    outboundCalls (send_request true true true b1 p connection_id request callback).2.1 =
      [Step.outboundCall connection_id request p.atomic_handle p.platform_handle]
    ∧ (send_request true true true b1 p connection_id request callback).2.2 =
      Except.ok ()
    ∧ send_request true true true b1 p connection_id request callback =
      send_request true true true b2 p connection_id request callback := by
  refine ⟨?_, rfl, rfl⟩
  simp [send_request, outboundCalls, List.filter_cons, Step.isOutboundCall]

/-- Concrete instantiation of `C6_outbound_call_arguments`: the scenario
`send_request(connection_id=5, payload=[1,2,3], cb)` on a fresh instance with
platform handle 7 produces the outbound call `(5, [1,2,3], 0, 7)`. -/
theorem C6_witness :
    outboundCalls (send_request true true true true (JavaPlatform.new Nat 7) 5 [1, 2, 3]
        0).2.1 = [Step.outboundCall 5 [1, 2, 3] 0 7]
    ∧ (send_request true true true true (JavaPlatform.new Nat 7) 5 [1, 2, 3] 0).2.2 =
      Except.ok () := by
  have h := C6_outbound_call_arguments (JavaPlatform.new Nat 7) 5 [1, 2, 3] 0 true true
  exact ⟨h.1, h.2.1⟩

/-- Claim C7: on a success delivery for a registered platform handle, a
failed payload conversion is unwrapped, aborting the handling thread: the
trace records only the abort — no callback branch is invoked and no error is
thrown back to the host — and the process state is unchanged. -/
theorem C7_convert_failure_aborts_thread {CB : Type} (reg : Registry CB)
    (p : JavaPlatform CB) (resp : List Nat) (ph rh : Int)
    (h : mapGet reg.handle_mapping ph = some p) :
    native_on_send_request_success false reg resp ph rh = (reg, [Step.panicked])
    ∧ invocations ([Step.panicked] : List (Step CB)) = []
    ∧ ([Step.panicked] : List (Step CB)).filter Step.isThrow = [] := by
  refine ⟨?_, rfl, rfl⟩
  simp [native_on_send_request_success, h]

/-- Concrete instantiation of `C7_convert_failure_aborts_thread`. -/
theorem C7_witness :
    native_on_send_request_success false
        (Registry.mk [(7, JavaPlatform.mk 7 [(0, (42 : Nat))] 1)] 8) [9] 7 0 =
      (Registry.mk [(7, JavaPlatform.mk 7 [(0, (42 : Nat))] 1)] 8, [Step.panicked]) :=
  (C7_convert_failure_aborts_thread
    (Registry.mk [(7, JavaPlatform.mk 7 [(0, (42 : Nat))] 1)] 8)
    (JavaPlatform.mk 7 [(0, (42 : Nat))] 1) [9] 7 0 rfl).1

/-- Claim C8: when `send_request` fails because the thread cannot be attached
to the runtime environment, it returns the attach error without any outbound
invocation having been made, and the callback entry inserted under the
freshly allocated response handle is still present in the resulting pending
table. -/
theorem C8_attach_failure_leaks_pending_entry {CB : Type} (marshal_ok call_result_ok : Bool)
    (p : JavaPlatform CB) (connection_id : Int) (request : List Nat) (callback : CB) :
    (send_request true false marshal_ok call_result_ok p connection_id request callback).2.2 =
      Except.error SendRequestError.attachFailure
    ∧ outboundCalls (send_request true false marshal_ok call_result_ok p connection_id request
        callback).2.1 = []
    ∧ mapGet (send_request true false marshal_ok call_result_ok p connection_id request
        callback).1.map_futures p.atomic_handle = some callback := by
  refine ⟨rfl, rfl, ?_⟩
  simp only [send_request, Bool.not_true, Bool.not_false, if_true, if_false]
  exact mapGet_insert_self _ _ _

/-- Concrete instantiation of `C8_attach_failure_leaks_pending_entry`. -/
theorem C8_witness :
    (send_request true false true true (JavaPlatform.new Nat 7) 5 [1, 2, 3] 42).2.2 =
      Except.error SendRequestError.attachFailure
    ∧ mapGet (send_request true false true true (JavaPlatform.new Nat 7) 5 [1, 2, 3]
        42).1.map_futures 0 = some 42 := by
  have h := C8_attach_failure_leaks_pending_entry true true (JavaPlatform.new Nat 7) 5
    [1, 2, 3] 42
  exact ⟨h.1, h.2.2⟩

/-- Shape of the platform-handle output sequence around the point where the
`i64` counter wraps: the 2^63-th call returns `2^63 - 1` and the next call
returns `-2^63`. -/
lemma genHandleSeq_split_at_wrap :
    genHandleSeq (2 ^ 63 + 1) 0 =
      genHandleSeq (2 ^ 63 - 1) 0 ++ [2 ^ 63 - 1, -(2 ^ 63)] := by
  have h2 : (2 ^ 63 + 1 : Nat) = (2 ^ 63 - 1) + 2 := by norm_num
  rw [h2, genHandleSeq_append]
  have hstate : genHandleState (2 ^ 63 - 1) 0 = 2 ^ 63 - 1 := by
    rw [genHandleState_eq (le_refl 0) (by omega)]
    omega
  rw [hstate]
  congr 1

/-- Claim C3 counterexample: `generate_platform_handle` is a wrapping `i64`
`fetch_add`, so across 2^63 + 1 calls from process start the outputs are not
strictly increasing — the 2^63-th call returns 2^63 - 1 and the next returns
-2^63. -/
theorem C3_counterexample :
    ¬ List.Pairwise (· < ·) (genHandleSeq (2 ^ 63 + 1) 0) := by
  rw [genHandleSeq_split_at_wrap]
  intro hp
  have h2 := (List.pairwise_append.mp hp).2.1
  have h3 := (List.pairwise_cons.mp h2).1 _ (List.mem_singleton.mpr rfl)
  omega

/-- Claim C3 (amended): for every sequence of at most 2^63
`generate_platform_handle` calls from process start (counter at 0), the
returned values are exactly 0, 1, 2, … — strictly increasing in issuance
order, pairwise distinct, and never repeated within the sequence.  (Beyond
2^63 calls the `i64` counter wraps, so the unbounded claim fails.) -/
theorem C3_handles_distinct_increasing (n : Nat) (h : n ≤ 2 ^ 63) :
    genHandleSeq n 0 = (List.range n).map (fun (k : Nat) => (k : Int))
    ∧ List.Pairwise (· < ·) (genHandleSeq n 0)
    ∧ (genHandleSeq n 0).Nodup := by
  have h0 : (0 : Int) + n ≤ 2 ^ 63 := by omega
  have hpw := genHandleSeq_pairwise (le_refl 0) h0
  refine ⟨?_, hpw, hpw.imp (fun hab => ne_of_lt hab)⟩
  rw [genHandleSeq_eq_range (le_refl 0) h0]
  simp

/-- Concrete instantiation of `C3_handles_distinct_increasing`. -/
theorem C3_witness :
    genHandleSeq 3 0 = [0, 1, 2] ∧ List.Pairwise (· < ·) (genHandleSeq 3 0) := by
  have h := C3_handles_distinct_increasing 3 (by norm_num)
  refine ⟨?_, h.2.1⟩
  rw [h.1]
  rfl

/-- Claim C4 counterexample: the per-instance response-handle counter also
wraps, so on a fresh instance the handles allocated by 2^63 + 1 successive
fully-successful `send_request` calls are not 0, 1, 2, … — the last call
allocates -2^63. -/
theorem C4_counterexample :
    sendRequestSeq (2 ^ 63 + 1) (JavaPlatform.new Nat 7) 5 [1, 2, 3] 0 ≠
      (List.range (2 ^ 63 + 1)).map (fun (k : Nat) => (k : Int)) := by
  intro hEq
  rw [sendRequestSeq_eq_genHandleSeq] at hEq
  simp only [JavaPlatform.new] at hEq
  have hmem : (-(2 ^ 63) : Int) ∈ genHandleSeq (2 ^ 63 + 1) 0 := by
    rw [genHandleSeq_split_at_wrap]
    simp
  rw [hEq] at hmem
  obtain ⟨k, _, hk⟩ := List.mem_map.mp hmem
  omega

/-- Claim C4 (amended): response handles come from a per-instance counter
starting at 0: for every fresh instance and every n ≤ 2^63, the handles
allocated by the first n `send_request` calls are exactly 0, 1, …, n-1 —
pairwise distinct within the instance, the first call using handle 0 — and
fresh instances with different platform handles and inputs allocate identical
handle sequences (values repeat across instances).  (Beyond 2^63 calls the
`i64` counter wraps, so the unbounded claim fails.) -/
theorem C4_response_handles_per_instance (CB : Type) (n : Nat) (h : n ≤ 2 ^ 63)
    (ph ph2 cid cid2 : Int) (req req2 : List Nat) (cb cb2 : CB) :
    sendRequestSeq n (JavaPlatform.new CB ph) cid req cb =
      (List.range n).map (fun (k : Nat) => (k : Int))
    ∧ (sendRequestSeq n (JavaPlatform.new CB ph) cid req cb).Nodup
    ∧ (1 ≤ n → (sendRequestSeq n (JavaPlatform.new CB ph) cid req cb).head? = some 0)
    ∧ sendRequestSeq n (JavaPlatform.new CB ph) cid req cb =
        sendRequestSeq n (JavaPlatform.new CB ph2) cid2 req2 cb2 := by
  have h0 : (0 : Int) + n ≤ 2 ^ 63 := by omega
  have he : sendRequestSeq n (JavaPlatform.new CB ph) cid req cb =
      (List.range n).map (fun (k : Nat) => (k : Int)) := by
    rw [sendRequestSeq_eq_genHandleSeq]
    simp only [JavaPlatform.new]
    rw [genHandleSeq_eq_range (le_refl 0) h0]
    simp
  have he2 : sendRequestSeq n (JavaPlatform.new CB ph2) cid2 req2 cb2 =
      (List.range n).map (fun (k : Nat) => (k : Int)) := by
    rw [sendRequestSeq_eq_genHandleSeq]
    simp only [JavaPlatform.new]
    rw [genHandleSeq_eq_range (le_refl 0) h0]
    simp
  refine ⟨he, ?_, ?_, by rw [he, he2]⟩
  · have hpw := genHandleSeq_pairwise (le_refl 0) h0
    rw [sendRequestSeq_eq_genHandleSeq]
    simp only [JavaPlatform.new]
    exact hpw.imp (fun hab => ne_of_lt hab)
  · intro hn
    rw [he]
    cases n with
    | zero => omega
    | succ m => simp [List.range_succ_eq_map]

/-- Concrete instantiation of `C4_response_handles_per_instance`: three calls
on a fresh instance allocate 0, 1, 2, starting at 0, and a different fresh
instance allocates the same sequence. -/
theorem C4_witness :
    sendRequestSeq 3 (JavaPlatform.new Nat 7) 5 [1, 2, 3] 0 = [0, 1, 2]
    ∧ (sendRequestSeq 3 (JavaPlatform.new Nat 7) 5 [1, 2, 3] 0).head? = some 0
    ∧ sendRequestSeq 3 (JavaPlatform.new Nat 7) 5 [1, 2, 3] 0 =
        sendRequestSeq 3 (JavaPlatform.new Nat 11) 9 [4] 1 := by
  have h := C4_response_handles_per_instance Nat 3 (by norm_num) 7 11 5 9 [1, 2, 3] [4] 0 1
  refine ⟨?_, h.2.2.1 (by norm_num), h.2.2.2⟩
  rw [h.1]
  rfl

/-- Claim C10: whenever signature parsing, thread attachment and payload
marshalling succeed, `send_request` returns success regardless of the
host-method invocation's own outcome (its result is discarded), and the
pending-callback entry inserted under the allocated response handle is still
in the table afterwards, awaiting an asynchronous completion. -/
theorem C10_call_result_discarded {CB : Type} (p : JavaPlatform CB) (connection_id : Int)
    (request : List Nat) (callback : CB) :
    (∀ call_result_ok : Bool,
      (send_request true true true call_result_ok p connection_id request callback).2.2 =
        Except.ok ())
    ∧ (∀ call_result_ok : Bool,
        mapGet (send_request true true true call_result_ok p connection_id request
          callback).1.map_futures p.atomic_handle = some callback) := by
  refine ⟨fun b => rfl, fun b => ?_⟩
  simp only [send_request, Bool.not_true, Bool.not_false, if_true, if_false]
  exact mapGet_insert_self _ _ _

/-- Concrete instantiation of `C10_call_result_discarded` with a failed host
invocation: the call still returns success and the entry stays pending. -/
theorem C10_witness :
    (send_request true true true false (JavaPlatform.new Nat 7) 5 [1, 2, 3] 42).2.2 =
      Except.ok ()
    ∧ mapGet (send_request true true true false (JavaPlatform.new Nat 7) 5 [1, 2, 3]
        42).1.map_futures 0 = some 42 := by
  have h := C10_call_result_discarded (JavaPlatform.new Nat 7) 5 [1, 2, 3] 42
  exact ⟨h.1 false, h.2 false⟩

/-! Lemmas about iterated `create`. -/

lemma create_handle_rn {CB : Type} (j n : Bool) (reg : Registry CB) :
    (create j n reg).1.handle_rn = i64wrap (reg.handle_rn + 1) := by
  cases j <;> cases n <;> simp [create, insert_platform_handle]

lemma runCreates_append {CB : Type} (l1 l2 : List (Bool × Bool)) (reg : Registry CB) :
    runCreates (l1 ++ l2) reg = runCreates l2 (runCreates l1 reg) := by
  induction l1 generalizing reg with
  | nil => rfl
  | cons f rest ih => simp [runCreates, ih]

lemma runCreates_handle_rn {CB : Type} (l : List (Bool × Bool)) :
    ∀ reg : Registry CB, -(2 ^ 63) ≤ reg.handle_rn → reg.handle_rn < 2 ^ 63 →
      (runCreates l reg).handle_rn = i64wrap (reg.handle_rn + l.length) := by
  induction l with
  | nil =>
    intro reg h1 h2
    simp [runCreates, i64wrap_eq_self h1 h2]
  | cons f rest ih =>
    intro reg h1 h2
    simp only [runCreates, List.length_cons]
    have hc := create_handle_rn f.1 f.2 reg
    rw [ih ((create f.1 f.2 reg).1) (by rw [hc]; exact (i64wrap_range _).1)
      (by rw [hc]; exact (i64wrap_range _).2), hc, i64wrap_add_left]
    congr 1
    push_cast
    ring

lemma runCreates_get_none {CB : Type} (l : List (Bool × Bool)) :
    ∀ reg : Registry CB, ∀ h : Int, -(2 ^ 63) ≤ h → h < reg.handle_rn →
      reg.handle_rn + l.length ≤ 2 ^ 63 →
      mapGet reg.handle_mapping h = none →
      mapGet (runCreates l reg).handle_mapping h = none := by
  induction l with
  | nil =>
    intro reg h _ _ _ hnone
    simpa [runCreates] using hnone
  | cons f rest ih =>
    intro reg h hlo hlt hub hnone
    simp only [List.length_cons] at hub
    simp only [runCreates]
    have hstep : mapGet (create f.1 f.2 reg).1.handle_mapping h = none := by
      have hne : h ≠ reg.handle_rn := by omega
      cases hj : f.1 <;> cases hn : f.2 <;>
        simp [create, insert_platform_handle, hnone, mapGet_insert_ne _ _ _ _ hne]
    rcases rest with _ | ⟨f2, rest'⟩
    · simpa [runCreates] using hstep
    · have hw : i64wrap (reg.handle_rn + 1) = reg.handle_rn + 1 := by
        have hlen : (0 : Int) ≤ ((f2 :: rest').length : Int) := by positivity
        refine i64wrap_eq_self (by omega) ?_
        simp only [List.length_cons] at hub hlen
        omega
      apply ih _ h hlo ?_ ?_ hstep
      · rw [create_handle_rn, hw]
        omega
      · rw [create_handle_rn, hw]
        simp only [List.length_cons] at hub ⊢
        omega

/-- Claim C9 (amended): a failed `JavaPlatform::create` — the process-wide
JVM reference not captured, or a binding failure inside `JavaPlatform::new` —
returns an error, yet has already advanced the platform-handle counter,
consuming the handle value, while leaving the registry mapping unchanged; and
no subsequent sequence of `create` calls that keeps the counter within the
non-wrapping `i64` range ever associates the consumed handle with an
instance.  (After the counter wraps through all 2^64 values the handle can be
reissued, so the unbounded "never" fails.) -/
theorem C9_failed_create_consumes_handle {CB : Type} (jvm_captured new_ok : Bool)
    (reg : Registry CB) (l : List (Bool × Bool))
    (hfail : jvm_captured = false ∨ new_ok = false)
    (hlo : -(2 ^ 63) ≤ reg.handle_rn)
    (hub : reg.handle_rn + 1 + l.length ≤ 2 ^ 63)
    (hnone : mapGet reg.handle_mapping reg.handle_rn = none) :
    isOkResult (create jvm_captured new_ok reg).2 = false
    ∧ (create jvm_captured new_ok reg).1.handle_mapping = reg.handle_mapping
    ∧ (create jvm_captured new_ok reg).1.handle_rn = i64wrap (reg.handle_rn + 1)
    ∧ mapGet (runCreates l (create jvm_captured new_ok reg).1).handle_mapping
        reg.handle_rn = none := by
  have hfalse : isOkResult (create jvm_captured new_ok reg).2 = false
      ∧ (create jvm_captured new_ok reg).1.handle_mapping = reg.handle_mapping := by
    rcases hfail with hf | hf <;> subst hf
    · cases new_ok <;> simp [create, isOkResult]
    · cases jvm_captured <;> simp [create, isOkResult]
  refine ⟨hfalse.1, hfalse.2, create_handle_rn _ _ _, ?_⟩
  have hlen : (0 : Int) ≤ (l.length : Int) := by positivity
  by_cases hcase : reg.handle_rn + 1 < 2 ^ 63
  · have hw : i64wrap (reg.handle_rn + 1) = reg.handle_rn + 1 :=
      i64wrap_eq_self (by omega) (by omega)
    apply runCreates_get_none l _ reg.handle_rn hlo ?_ ?_ ?_
    · rw [create_handle_rn, hw]
      omega
    · rw [create_handle_rn, hw]
      omega
    · rw [hfalse.2]
      exact hnone
  · have hl0 : l = [] := by
      have hz : l.length = 0 := by omega
      exact List.length_eq_zero.mp hz
    subst hl0
    simp only [runCreates]
    rw [hfalse.2]
    exact hnone

/-- Concrete instantiation of `C9_failed_create_consumes_handle`: from a
fresh registry a failed create consumes handle 0 and two further creates (one
successful, one failed) never associate 0 with an instance. -/
theorem C9_witness :
    isOkResult (create false true (Registry.mk ([] : List (Int × JavaPlatform Nat)) 0)).2 =
      false
    ∧ (create false true (Registry.mk ([] : List (Int × JavaPlatform Nat)) 0)).1.handle_rn = 1
    ∧ mapGet (runCreates [(true, true), (false, true)]
        (create false true (Registry.mk ([] : List (Int × JavaPlatform Nat)) 0)).1).handle_mapping
        0 = none := by
  have h := C9_failed_create_consumes_handle false true
    (Registry.mk ([] : List (Int × JavaPlatform Nat)) 0) [(true, true), (false, true)]
    (Or.inl rfl) (by norm_num) (by norm_num) rfl
  refine ⟨h.1, ?_, h.2.2.2⟩
  rw [h.2.2.1]
  decide

/-- A single successful create on a registry whose counter stands at 0
registers an instance under handle 0. -/
lemma mapGet_runCreates_single {CB : Type} (R : Registry CB) (hrn : R.handle_rn = 0) :
    mapGet (runCreates [(true, true)] R).handle_mapping 0 ≠ none := by
  simp only [runCreates]
  simp [create, insert_platform_handle, hrn, mapGet_insert_self]

/-- Claim C9 counterexample to the unbounded "never associated with any
instance": starting from a fresh registry, a failed create consumes handle 0;
after 2^64 - 1 further creates the wrapping counter returns to 0, and one
more successful create then does associate handle 0 with an instance. -/
theorem C9_counterexample :
    isOkResult (create false true (Registry.mk ([] : List (Int × JavaPlatform Nat)) 0)).2 =
      false
    ∧ mapGet (runCreates (List.replicate (2 ^ 64 - 1) (true, true) ++ [(true, true)])
        (create false true
          (Registry.mk ([] : List (Int × JavaPlatform Nat)) 0)).1).handle_mapping 0 ≠
      none := by
  constructor
  · rfl
  · rw [runCreates_append]
    have h1 : (create false true
        (Registry.mk ([] : List (Int × JavaPlatform Nat)) 0)).1.handle_rn = 1 := by
      decide
    have hrn : (runCreates (List.replicate (2 ^ 64 - 1) (true, true))
        (create false true
          (Registry.mk ([] : List (Int × JavaPlatform Nat)) 0)).1).handle_rn = 0 := by
      rw [runCreates_handle_rn _ _ (by rw [h1]; norm_num) (by rw [h1]; norm_num), h1,
        List.length_replicate]
      have hcast : (1 : Int) + ((2 ^ 64 - 1 : Nat) : Int) = 2 ^ 64 := by omega
      rw [hcast]
      decide
    exact mapGet_runCreates_single _ hrn

end RemoteAuthJni
